import Mathlib

/-!
Verification development for the firepower-kickstart console-automation
library.  The Python modules under `kick/device2` drive interactive console
sessions through an ordered expect/respond dialog engine and a state-machine
of prompt-detected device states.  This file embeds, shallowly:

* the dialog-rule tables and the state/path tables exactly as declared in
  `chassis/actions/dialogs.py` and `kp/actions/statemachine.py`;
* the provisioning workflow functions of `kp/actions/kp.py`
  (`download_ftd_fp2k`, `_wait_till_download_complete`,
  `is_firmware_fp2k_ready`, `validate_version`, `power_cycle`,
  `wait_for_rommon`) as executable Lean functions over explicit inputs
  (device output strings, per-poll status streams, power-bar settings);
* the metric emissions of `Kp.__init__`, `KpLine.baseline_fp2k_ftd` and
  `WmLine.baseline` as explicit traces.

The dialog-matching engine and the state-machine `go_to` operation live in
the external `unicon` package, outside this repository's sources; those two
pieces are modelled from the specification (first-match-in-list-order rule
selection, breadth-first shortest-path transition planning) and are marked
as such in their doc comments.
-/

/-! ### Character/string helpers (Python `str` operations on `List Char`) -/

/-- Python's `\s` character class: space, tab, newline, carriage return,
vertical tab, form feed. -/
def pyIsSpace (c : Char) : Bool :=
  c == ' ' || c == '\t' || c == '\n' || c == '\r' || c == '\x0b' || c == '\x0c'

/-- Boolean list-prefix test (used to model regex literal matching and
Python `str.startswith`). -/
def listIsPrefix : List Char → List Char → Bool
  | [], _ => true
  | _ :: _, [] => false
  | x :: xs, y :: ys => x == y && listIsPrefix xs ys

/-- Boolean list-infix test: `needle` occurs contiguously in the second
argument (Python `needle in hay`). -/
def listIsInfixB (needle : List Char) : List Char → Bool
  | [] => listIsPrefix needle []
  | c :: rest => listIsPrefix needle (c :: rest) || listIsInfixB needle rest

/-- `needle` occurs as a substring of `hay` (Python `needle in hay`). -/
def strContainsB (hay needle : String) : Bool :=
  listIsInfixB needle.data hay.data

/-- `s` starts with `pre` (Python `str.startswith`). -/
def strHasPrefixB (s pre : String) : Bool :=
  listIsPrefix pre.data s.data

/-- `s` ends with `suf` (Python `str.endswith`). -/
def strHasSuffixB (s suf : String) : Bool :=
  listIsPrefix suf.data.reverse s.data.reverse

/-- Helper for `pySplit`: accumulates the current field (reversed). -/
def pySplitAux (sep : Char) : List Char → List Char → List (List Char)
  | [], acc => [acc.reverse]
  | x :: xs, acc =>
    if x == sep then acc.reverse :: pySplitAux sep xs []
    else pySplitAux sep xs (x :: acc)

/-- Python `str.split(sep)` for a one-character separator: keeps empty
fields, always returns at least one field. -/
def pySplit (s : String) (sep : Char) : List String :=
  (pySplitAux sep s.data []).map (fun l => String.mk l)

/-- Python `str.strip()`: remove leading and trailing whitespace. -/
def pyStrip (s : String) : String :=
  String.mk (((s.data.dropWhile pyIsSpace).reverse.dropWhile pyIsSpace).reverse)

/-! ### Dialog engine

A `Pattern` is an abstract matcher over the accumulated buffer: the Python
code compiles regular expressions whose text comes from per-device
configuration, so prompt patterns are parameters here, while string-literal
patterns without metacharacters are substring matchers. -/

def Pattern := String → Bool

/-- A literal dialog pattern such as `'Close Network Connection to Exit'`:
matches any buffer containing the literal text. -/
def litPat (s : String) : Pattern := fun buf => strContainsB buf s

/-- What a matched dialog rule does: send a line, run a named Python
callback, or nothing (`None` action). -/
inductive DialogAction : Type
  | send (text : String)
  | callback (name : String)
  | noop
deriving DecidableEq

/-- One rule of a `unicon` `Dialog`: `[pattern, action, timeout-override,
continue-after-match, keep-going-after-timeout]`. -/
structure DialogRule : Type where
  pattern : Pattern
  action : DialogAction
  timeoutOverride : Option Nat
  contAfterMatch : Bool
  keepGoingTimeout : Bool

/-- Modelled from the spec: the Dialog Engine (`unicon.eal.dialogs`, not in
this repository's sources) tests rules in declaration order against the
current buffer and selects the first whose pattern matches.  Returns the
selected rule's index together with the rule. -/
def selectRule : List DialogRule → String → Option (Nat × DialogRule)
  | [], _ => none
  | r :: rs, buf =>
    if r.pattern buf then some (0, r)
    else (selectRule rs buf).map (fun p => (p.1 + 1, p.2))

/-- The action executed by one engine step on a buffer: the action of the
first rule in list order whose pattern matches, if any. -/
def dialogStepAction (rules : List DialogRule) (buf : String) : Option DialogAction :=
  (selectRule rules buf).map (fun p => p.2.action)

/-- A failed dialog run: the stream timed out with no rule matched; carries
the unmatched buffer. -/
inductive DialogFailure : Type
  | timeout (buffer : String)
deriving DecidableEq

/-- Modelled from the spec: a dialog run over a stream, the stream being a
list of received chunks.  Each new chunk extends the buffer; the first rule
in list order that matches fires; a rule with `continue-after-match = false`
ends the run with that rule as the result; exhausting the stream with no
terminal rule is a timeout carrying the unmatched buffer. -/
def runDialog (d : List DialogRule) : List String → String → Except DialogFailure (Nat × DialogRule)
  | [], buf => .error (.timeout buf)
  | c :: cs, buf =>
    let b := buf ++ c
    match selectRule d b with
    | none => runDialog d cs b
    | some (k, r) => if r.contAfterMatch then runDialog d cs "" else .ok (k, r)

/-! ### Dialogs embedded from `chassis/actions/dialogs.py` -/

/-- `ChassisDialogs.d_mio_to_fpr_module`: the five rules in declaration
order.  The prompt patterns (`fireos_prompt`, `expert_cli`, `sudo_prompt`)
are built from per-device configuration and are parameters; the two literal
patterns are substring matchers; `chr(3)` is `'\x03'`. -/
def d_mio_to_fpr_module (fireosPrompt expertCli sudoPrompt : Pattern) : List DialogRule :=
  [ ⟨litPat "Close Network Connection to Exit", .callback "action_mio_to_fpr_module",
      none, true, true⟩,
    ⟨fireosPrompt, .send "exit", none, true, true⟩,
    ⟨expertCli, .send "exit", none, true, true⟩,
    ⟨sudoPrompt, .send "exit", none, true, true⟩,
    ⟨litPat "\x07", .send "\x03", none, true, true⟩ ]

/-! ### `KpLine.wait_for_rommon` (kp/actions/kp.py) -/

/-- The dialog of `KpLine.wait_for_rommon`: `'Boot in 10 seconds.'` answered
with `chr(27)` (escape), and the `rommon_state` detection pattern with no
action; both rules are non-continuing. -/
def waitForRommonDialog (rommonPrompt : Pattern) : List DialogRule :=
  [ ⟨litPat "Boot in 10 seconds.", .send "\x1b", none, false, false⟩,
    ⟨rommonPrompt, .noop, none, false, false⟩ ]

/-- `KpLine.wait_for_rommon`: runs the dialog on the stream and only after
it completes successfully updates the state machine's current state to
`'rommon_state'`; a dialog failure propagates and the current state is left
as it was. -/
def wait_for_rommon (rommonPrompt : Pattern) (chunks : List String)
    (curState : String) : Except DialogFailure Unit × String :=
  match runDialog (waitForRommonDialog rommonPrompt) chunks "" with
  | .ok _ => (.ok (), "rommon_state")
  | .error e => (.error e, curState)

/-! ### Kp state machine graph (kp/actions/statemachine.py)

`KpStateMachine.create` declares ten states and nineteen directed `Path`s.
The states are embedded as an enumerated type whose `name` function gives
the Python state names; each `Path` carries its command string and the name
of its dialog when it has one. -/

inductive KpSt : Type
  | prelogin | fxos | fireos | expert | sudo | rommon | localMgmt
  | enable | disable | config
deriving DecidableEq

/-- The Python name of each state. -/
def KpSt.name : KpSt → String
  | .prelogin => "prelogin_state"
  | .fxos => "fxos_state"
  | .fireos => "fireos_state"
  | .expert => "expert_state"
  | .sudo => "sudo_state"
  | .rommon => "rommon_state"
  | .localMgmt => "local_mgmt_state"
  | .enable => "enable_state"
  | .disable => "disable_state"
  | .config => "config_state"

/-- A directed transition of the state machine: from-state, to-state, the
command sent, and the name of the dialog run along the way, if any. -/
structure KpPath : Type where
  src : KpSt
  dst : KpSt
  command : String
  dialog : Option String
deriving DecidableEq

/-- The nineteen `Path`s added by `KpStateMachine.create`, in `add_path`
order.  `'\001'+'d'+'exit'` is the string `"\x01dexit"`. -/
def kpPaths : List KpPath :=
  [ ⟨.prelogin, .fxos, "", some "d_prelogin_to_fxos"⟩,
    ⟨.fxos, .prelogin, "top; exit", none⟩,
    ⟨.fxos, .fireos, "connect ftd", none⟩,
    ⟨.fxos, .localMgmt, "connect local-mgmt", none⟩,
    ⟨.fireos, .expert, "expert", none⟩,
    ⟨.expert, .sudo, "sudo su -", some "d_expert_to_sudo"⟩,
    ⟨.sudo, .expert, "exit", none⟩,
    ⟨.expert, .fireos, "exit", none⟩,
    ⟨.fireos, .fxos, "connect fxos", some "d_ftd_to_fxos"⟩,
    ⟨.localMgmt, .fxos, "exit", none⟩,
    ⟨.expert, .disable, "sudo lina_cli", some "d_expert_to_disable"⟩,
    ⟨.fireos, .disable, "system support diagnostic-cli", some "d_enable_to_disable"⟩,
    ⟨.fireos, .enable, "system support diagnostic-cli", some "d_disable_to_enable"⟩,
    ⟨.fireos, .config, "system support diagnostic-cli", some "d_endisable_to_conft"⟩,
    ⟨.disable, .enable, "en", some "disable_to_enable"⟩,
    ⟨.enable, .disable, "disable", none⟩,
    ⟨.disable, .fireos, "\x01dexit", none⟩,
    ⟨.enable, .config, "conf t", none⟩,
    ⟨.config, .enable, "end", none⟩ ]

/-- All ten states. -/
def kpStates : List KpSt :=
  [.prelogin, .fxos, .fireos, .expert, .sudo, .rommon, .localMgmt,
   .enable, .disable, .config]

/-- Successors of a state along declared paths. -/
def succsOf (s : KpSt) : List KpSt :=
  (kpPaths.filter (fun p => decide (p.src = s))).map (fun p => p.dst)

/-- One breadth-first expansion step: a set of states together with every
state one declared path away from it. -/
def stepSet (S : List KpSt) : List KpSt :=
  (S ++ S.flatMap succsOf).dedup

/-- States reachable from the set `S` in at most `n` path steps. -/
def reachN (S : List KpSt) : Nat → List KpSt
  | 0 => S
  | n + 1 => stepSet (reachN S n)

/-- `chainB a ps b`: the path list `ps` is a valid walk of declared paths
from `a` to `b`, taken in order. -/
def chainB : KpSt → List KpPath → KpSt → Bool
  | a, [], b => decide (a = b)
  | a, p :: ps, b => decide (p.src = a) && decide (p ∈ kpPaths) && chainB p.dst ps b

/-- Search for the least `n ≤` bound with `B` reachable from `A` in `n`
steps (breadth-first level search). -/
def distAux (A B : KpSt) : Nat → Nat → Option Nat
  | 0, _ => none
  | fuel + 1, n => if B ∈ reachN [A] n then some n else distAux A B fuel (n + 1)

/-- Length of the shortest path from `A` to `B`, if one exists; the graph
has ten states, so level `10` saturates reachability. -/
def kpDist (A B : KpSt) : Option Nat := distAux A B 11 0

/-- Reconstruct a path list of length at most `n` from `A` to `B`, walking
backwards through the breadth-first levels. -/
def extractPath (A : KpSt) : Nat → KpSt → Option (List KpPath)
  | 0, b => if A = b then some [] else none
  | n + 1, b =>
    if A = b then some []
    else
      match kpPaths.find? (fun p => decide (p.dst = b) && decide (p.src ∈ reachN [A] n)) with
      | some p => (extractPath A n p.src).map (fun ps => ps ++ [p])
      | none => none

/-- `go_to` failure: the requested target is unreachable from the current
state (`unicon` raises `StateMachineError`; the spec calls it
`NoPathError`). -/
inductive SmError : Type
  | noPath
deriving DecidableEq

/-- Modelled from the spec: `StateMachine.go_to` (in the external `unicon`
package, not in this repository's sources) finds the shortest sequence of
declared `Path`s from the current state to the target by breadth-first
search and executes them in order; with no path it fails with
`NoPathError`.  Returns the executed path list. -/
def goTo (A B : KpSt) : Except SmError (List KpPath) :=
  match kpDist A B with
  | some n =>
    match extractPath A n B with
    | some ps => .ok ps
    | none => .error .noPath
  | none => .error .noPath

/-- The session's current state after `go_to(B)` from `A`: `B` on success,
unchanged on failure. -/
def goToEndState (A B : KpSt) : KpSt :=
  match goTo A B with
  | .ok _ => B
  | .error _ => A

/-- Decidable reachability test used by the checker. -/
def memReach (A B : KpSt) (n : Nat) : Bool := decide (B ∈ reachN [A] n)

/-- Per-pair checker: on success the returned paths form a valid chain and
no strictly shorter level already contains the target; on failure the
target is outside the saturated reachable set. -/
def goToCheck (A B : KpSt) : Bool :=
  match goTo A B with
  | .ok ps =>
    chainB A ps B && (decide (ps.length = 0) || !(memReach A B (ps.length - 1)))
  | .error e =>
    decide (e = SmError.noPath) && !(memReach A B 10) &&
      (stepSet (reachN [A] 10)).all (fun x => decide (x ∈ reachN [A] 10))

/-- Boolean test for the `go_to` failure outcome. -/
def isNoPath (x : Except SmError (List KpPath)) : Bool :=
  match x with
  | .error .noPath => true
  | .ok _ => false

/-- Global checker over all state pairs, plus: `rommon_state` is the target
of no path, so `go_to` fails from every other state. -/
def kpCheckAll : Bool :=
  (kpStates.all (fun a => kpStates.all (fun b => goToCheck a b))) &&
  (kpStates.all (fun a => decide (a = KpSt.rommon) || isNoPath (goTo a KpSt.rommon)))

/-! ### Provisioning workflow models (kp/actions/kp.py) -/

/-- `MAX_RETRY_COUNT` from kp.py. -/
def MAX_RETRY_COUNT : Nat := 3

/-- Workflow failures raised by the kp.py functions modelled here. -/
inductive KpError : Type
  | downloadFailed (tries : Nat) (url : String)
  | versionMismatch (observed expected : String)
  | indexError
deriving DecidableEq

/-- Outcome of `_wait_till_download_complete`: the returned status string,
or the `RuntimeError('download took too long: ...')` raised at the
deadline. -/
inductive WaitResult : Type
  | completed
  | failed
  | timedOut (message : String)
deriving DecidableEq

/-- The polling loop of `KpLine._wait_till_download_complete` after the
image name has been extracted from the URL.  Loop state: remaining `fuel`
(loop-body executions still allowed by the model; `none` means the loop is
still running after that many iterations), `elapsed` (the Python
`elapsed_time` variable, updated only in the `'Downloading'` branch),
`polls` (status checks made so far) and `simTime` (wall-clock seconds since
`start_time`; each iteration sleeps 10 seconds before polling).  Returns
the result together with the poll count and the wall-clock time. -/
def waitAux (statuses : Nat → String) (waitUpto : Nat) (imageName : String) :
    Nat → Nat → Nat → Nat → Option (WaitResult × Nat × Nat)
  | 0, elapsed, polls, simTime =>
    if elapsed < waitUpto then none
    else some (.timedOut ("download took too long: " ++ imageName), polls, simTime)
  | fuel + 1, elapsed, polls, simTime =>
    if elapsed < waitUpto then
      if statuses polls = "Downloaded" then some (.completed, polls + 1, simTime + 10)
      else if statuses polls = "Downloading" then
        waitAux statuses waitUpto imageName fuel (simTime + 10) (polls + 1) (simTime + 10)
      else if statuses polls = "Failed" then some (.failed, polls + 1, simTime + 10)
      else waitAux statuses waitUpto imageName fuel elapsed (polls + 1) (simTime + 10)
    else some (.timedOut ("download took too long: " ++ imageName), polls, simTime)

/-- `KpLine._wait_till_download_complete` with `wait_upto` seconds of
deadline: starts with `elapsed_time = 0`, no polls made, zero wall-clock
time. -/
def waitTillDownloadComplete (statuses : Nat → String) (waitUpto : Nat)
    (imageName : String) (fuel : Nat) : Option (WaitResult × Nat × Nat) :=
  waitAux statuses waitUpto imageName fuel 0 0 0

/-- A `Package` row of `show package` as parsed by `KpLine.get_packages`. -/
structure Package : Type where
  name : String
  version : String
deriving DecidableEq

/-- `fxos_url.split("/")[-1].strip()` in `KpLine.download_ftd_fp2k`. -/
def bundlePackageName (fxosUrl : String) : String :=
  pyStrip ((pySplit fxosUrl '/').getLastD "")

/-- `KpLine.is_firmware_fp2k_ready`, as a function of the output of
`show firmware package-version | grep Package-Vers`: Python takes
`output.split(':')[1].strip()` and compares it with the requested version;
`none` models the `IndexError` raised when the output has no `':'`. -/
def is_firmware_fp2k_ready (fprmOutput : String) (version : String) : Option Bool :=
  match pySplit fprmOutput ':' with
  | _ :: v :: _ => some (pyStrip v == version)
  | _ => none

/-- A workflow run: the command lines sent to the device, and the result. -/
structure KpRun : Type where
  trace : List String
  result : Except KpError Unit

/-- The retry loop of `KpLine.download_ftd_fp2k`.  `attemptStatus i` is the
status string returned by `_wait_till_download_complete` for the `i`-th
`download image` command.  Each iteration sends one `download image` line;
on `'Failed'` the retry counter is decremented and, at zero, the terminal
`RuntimeError` naming `MAX_RETRY_COUNT` and the URL is raised; on
`'Downloaded'` the function returns; otherwise the 5-minute Ctrl-C wait
(thirty `'\x03'` lines) runs and the loop repeats.  `none` models a run
still going after `fuel` iterations (the Python loop cannot exit normally
otherwise: the counter only decrements on `'Failed'`). -/
def downloadLoop (url : String) (attemptStatus : Nat → String) :
    Nat → Nat → Nat → Option KpRun
  | _, _, 0 => none
  | attempt, rc, fuel + 1 =>
    if rc = 0 then some ⟨[], .ok ()⟩
    else
      let cmd := "download image " ++ url
      let st := attemptStatus attempt
      if st = "Failed" then
        if rc - 1 = 0 then some ⟨[cmd], .error (.downloadFailed MAX_RETRY_COUNT url)⟩
        else
          (downloadLoop url attemptStatus (attempt + 1) (rc - 1) fuel).map
            (fun r => ⟨cmd :: List.replicate 30 "\x03" ++ r.trace, r.result⟩)
      else if st = "Downloaded" then some ⟨[cmd], .ok ()⟩
      else
        (downloadLoop url attemptStatus (attempt + 1) rc fuel).map
          (fun r => ⟨cmd :: List.replicate 30 "\x03" ++ r.trace, r.result⟩)

/-- The `show firmware package-version` command line sent by
`is_firmware_fp2k_ready`. -/
def fprmCheckCmd : String := "show firmware package-version | grep Package-Vers"

/-- `KpLine.download_ftd_fp2k` as a function of the device's answer to the
firmware-version query (`fprmOutput`), the parsed package list
(`get_packages`), and the per-attempt download statuses.  Skips everything
when the bundle version is already installed; skips the download when the
bundle package is already in the package list; otherwise runs the retry
loop. -/
def download_ftd_fp2k (fxosUrl ftdVersion fprmOutput : String)
    (packages : List Package) (attemptStatus : Nat → String) : Option KpRun :=
  let bundle := bundlePackageName fxosUrl
  match is_firmware_fp2k_ready fprmOutput ftdVersion with
  | none => some ⟨[fprmCheckCmd], .error .indexError⟩
  | some true => some ⟨[fprmCheckCmd], .ok ()⟩
  | some false =>
    let tr0 := [fprmCheckCmd, "top", "scope firmware", "show package"]
    if bundle ∈ packages.map Package.name then some ⟨tr0, .ok ()⟩
    else
      (downloadLoop fxosUrl attemptStatus 0 MAX_RETRY_COUNT (MAX_RETRY_COUNT + 1)).map
        (fun r => ⟨tr0 ++ r.trace, r.result⟩)

/-- Number of `download image` commands in a trace. -/
def downloadImageCount (trace : List String) : Nat :=
  (trace.filter (fun c => strHasPrefixB c "download image ")).length

/-! ### `KpLine.validate_version` (kp/actions/kp.py) -/

/-- First match of the regex `Build\s(\d+)` in a character list: scan left
to right for the literal `Build`, one whitespace character, then a maximal
nonempty digit run (the capture). -/
def findBuild : List Char → Option (List Char)
  | [] => none
  | c :: rest =>
    if listIsPrefix "Build".data (c :: rest) then
      match (c :: rest).drop 5 with
      | w :: r2 =>
        if pyIsSpace w then
          let ds := r2.takeWhile Char.isDigit
          if ds.isEmpty then findBuild rest else some ds
        else findBuild rest
      | [] => findBuild rest
    else findBuild rest

/-- First match of the regex `(Version\s){1}([0-9.]+\d)`, second capture
group: after the literal `Version` and one whitespace character, the
maximal run of digits and dots, trailing dots stripped so the match ends in
a digit; the run must keep at least two characters (`[0-9.]+` plus the
final `\d`). -/
def findVersion : List Char → Option (List Char)
  | [] => none
  | c :: rest =>
    if listIsPrefix "Version".data (c :: rest) then
      match (c :: rest).drop 7 with
      | w :: r2 =>
        if pyIsSpace w then
          let run := r2.takeWhile (fun x => x.isDigit || x == '.')
          let core := (run.reverse.dropWhile (fun x => x == '.')).reverse
          if 2 ≤ core.length then some core else findVersion rest
        else findVersion rest
      | [] => findVersion rest
    else findVersion rest

/-- `KpLine.validate_version` as a function of the final `show version`
output and the expected `ftd_version`.  The build and version numbers are
extracted with the two regexes above; the check is Python's
`build in ftd_version and version in ftd_version` (substring containment);
on mismatch the raised `RuntimeError` carries the observed output and the
expected version.  A response in which either regex finds nothing raises
`IndexError` (`findall(...)[0]`). -/
def validate_version (response ftdVersion : String) : Except KpError Unit :=
  match findBuild response.data, findVersion response.data with
  | some b, some v =>
    if listIsInfixB b ftdVersion.data && listIsInfixB v ftdVersion.data then .ok ()
    else .error (.versionMismatch response ftdVersion)
  | _, _ => .error .indexError

/-! ### `KpLine.power_cycle` (kp/actions/kp.py) -/

/-- Python truthiness of an optional string: `None` and `''` are falsy. -/
def pyTruthy : Option String → Bool
  | none => false
  | some s => !(s == "")

/-- Observable outcome of `KpLine.power_cycle`: the returned value, the
power-bar fields after the call, and whether `power_cycle_all_ports` (the
external PDU call) was invoked. -/
structure PowerCycleOut : Type where
  result : Option Bool
  storedServer : Option String
  storedPort : Option String
  storedUser : Option String
  storedPwd : Option String
  pduCalled : Bool
deriving DecidableEq

/-- `KpLine.power_cycle` over explicit stored power-bar fields and call
arguments.  The guard returns `None` when the stored server is falsy and
the argument server is falsy, or the argument server is `''`, or likewise
for the ports.  Otherwise, when an argument server or port is truthy,
`set_power_bar` replaces all four stored fields with the arguments; then
the external `power_cycle_all_ports` runs and its status (`pduResult`) is
returned.  (`wait_until_device_on` is out of scope here.) -/
def power_cycle (storedServer storedPort storedUser storedPwd : Option String)
    (argServer argPort : Option String) (argUser argPwd : String)
    (pduResult : Bool) : PowerCycleOut :=
  if (!(pyTruthy storedServer) && !(pyTruthy argServer)) || argServer == some "" ||
      (!(pyTruthy storedPort) && !(pyTruthy argPort)) || argPort == some "" then
    ⟨none, storedServer, storedPort, storedUser, storedPwd, false⟩
  else if pyTruthy argServer || pyTruthy argPort then
    ⟨some pduResult, argServer, argPort, some argUser, some argPwd, true⟩
  else
    ⟨some pduResult, storedServer, storedPort, storedUser, storedPwd, true⟩

/-! ### Metric emissions (kp/actions/kp.py and wm/actions/wm.py)

Each `publish_kick_metric(name, 1)` call site is recorded as a trace entry,
in execution order.  `BasicDevice.__init__` (general/actions/basic.py) is
not among the sources; per the spec's "one counter increment per top-level
operation invocation" it contributes no metric of its own here. -/

/-- Metrics published by one `Kp.__init__` call. -/
def kpInitMetrics : List (String × Nat) := [("device.kp.init", 1)]

/-- Metrics published by one `Wm.__init__` call. -/
def wmInitMetrics : List (String × Nat) := [("device.wm.init", 1)]

/-- Metrics published by one `KpLine.baseline_fp2k_ftd` call: its own
counter; no helper it invokes publishes anything. -/
def baselineFp2kFtdMetrics : List (String × Nat) := [("device.kp.baseline", 1)]

/-- Metrics published by one `WmLine.baseline` call: its own counter, then
everything published by the `baseline_fp2k_ftd` call it delegates to. -/
def wmBaselineMetrics : List (String × Nat) :=
  ("device.wm.baseline", 1) :: baselineFp2kFtdMetrics

/-- Total increments of counters whose name ends in `suffix` within a
metric trace. -/
def countMetric (suffix : String) (trace : List (String × Nat)) : Nat :=
  ((trace.filter (fun m => strHasSuffixB m.1 suffix)).map (fun m => m.2)).sum

/-! ## Lemmas about the dialog engine's rule selection -/

/-- If the rule at index `i` matches the buffer, some rule at an index
`k ≤ i` is selected. -/
theorem selectRule_le_of_match (rules : List DialogRule) (buf : String) :
    ∀ (i : Nat) (hi : i < rules.length),
      (rules.get ⟨i, hi⟩).pattern buf = true →
      ∃ k r, selectRule rules buf = some (k, r) ∧ k ≤ i := by
  induction rules with
  | nil => intro i hi; exact absurd hi (by simp)
  | cons r rs ih =>
    intro i hi hm
    cases hr : r.pattern buf
    · cases i with
      | zero => simp only [List.get] at hm; rw [hm] at hr; cases hr
      | succ i' =>
        have hi' : i' < rs.length := by simpa using hi
        obtain ⟨k, r', hsel, hk⟩ := ih i' hi' (by simpa using hm)
        refine ⟨k + 1, r', ?_, by omega⟩
        simp [selectRule, hr, hsel]
    · exact ⟨0, r, by simp [selectRule, hr], Nat.zero_le _⟩

/-- If no rule before index `i` matches and the rule at `i` matches, then
exactly the rule at `i` is selected. -/
theorem selectRule_eq_of_first (rules : List DialogRule) (buf : String) :
    ∀ (i : Nat) (hi : i < rules.length),
      (rules.get ⟨i, hi⟩).pattern buf = true →
      (∀ l (hl : l < rules.length), l < i → (rules.get ⟨l, hl⟩).pattern buf = false) →
      selectRule rules buf = some (i, rules.get ⟨i, hi⟩) := by
  induction rules with
  | nil => intro i hi; exact absurd hi (by simp)
  | cons r rs ih =>
    intro i hi hm hfirst
    cases i with
    | zero => simp only [List.get] at hm ⊢; simp [selectRule, hm]
    | succ i' =>
      have hr : r.pattern buf = false := hfirst 0 (by simp) (Nat.succ_pos _)
      have hi' : i' < rs.length := by simpa using hi
      have hrec := ih i' hi' (by simpa using hm) ?_
      · simp [selectRule, hr, hrec]
      · intro l hl hli
        exact hfirst (l + 1) (by simpa using hl) (by omega)

/-- C1: in every Dialog (such as `ChassisDialogs.d_mio_to_fpr_module`),
when the accumulated buffer satisfies the patterns of rules `Ri` and `Rj`
with `i < j`, the engine selects and executes the action of a rule with
index at most `i` — never rule `j` — and when `Ri` is the first matching
rule it executes exactly `Ri`'s action: first match in declaration order
wins, earlier rules shadow later ones. -/
theorem dialog_first_match_wins (rules : List DialogRule) (buf : String)
    (i j : Nat) (hij : i < j) (hi : i < rules.length) (hj : j < rules.length)
    (hmi : (rules.get ⟨i, hi⟩).pattern buf = true)
    (_hmj : (rules.get ⟨j, hj⟩).pattern buf = true) :
    (∃ k r, selectRule rules buf = some (k, r) ∧ k ≤ i ∧ k ≠ j ∧
      dialogStepAction rules buf = some r.action) ∧
    ((∀ l (hl : l < rules.length), l < i → (rules.get ⟨l, hl⟩).pattern buf = false) →
      selectRule rules buf = some (i, rules.get ⟨i, hi⟩) ∧
      dialogStepAction rules buf = some (rules.get ⟨i, hi⟩).action) := by
  constructor
  · obtain ⟨k, r, hsel, hk⟩ := selectRule_le_of_match rules buf i hi hmi
    exact ⟨k, r, hsel, hk, by omega, by simp [dialogStepAction, hsel]⟩
  · intro hfirst
    have hsel := selectRule_eq_of_first rules buf i hi hmi hfirst
    exact ⟨hsel, by simp [dialogStepAction, hsel]⟩

/-- A stub prompt pattern that matches nothing: stands in for the
configuration-built prompts of `d_mio_to_fpr_module` in the witness. -/
def mioPromptStub : Pattern := fun _ => false

/-- A buffer satisfying both the first and the fifth rule of
`d_mio_to_fpr_module` (the literal text plus a BEL character). -/
def mioBufEx : String := "Close Network Connection to Exit\x07"

theorem dialog_first_match_wins_witness :
    ∃ k r,
      selectRule (d_mio_to_fpr_module mioPromptStub mioPromptStub mioPromptStub)
        mioBufEx = some (k, r) ∧ k ≤ 0 ∧ k ≠ 4 ∧
      dialogStepAction (d_mio_to_fpr_module mioPromptStub mioPromptStub mioPromptStub)
        mioBufEx = some r.action :=
  (dialog_first_match_wins
    (d_mio_to_fpr_module mioPromptStub mioPromptStub mioPromptStub) mioBufEx
    0 4 (by decide) (by decide) (by decide) (by decide) (by decide)).1

/-- C7: a dialog run that fails (times out) leaves the session's current
state unchanged: `wait_for_rommon` updates the current state to
`'rommon_state'` only after its dialog completes successfully; on a dialog
failure the error propagates and no partial transition is committed. -/
theorem wait_for_rommon_no_partial_transition (rommonPrompt : Pattern)
    (chunks : List String) (curState : String) :
    (∀ e, runDialog (waitForRommonDialog rommonPrompt) chunks "" = .error e →
      wait_for_rommon rommonPrompt chunks curState = (.error e, curState)) ∧
    (∀ m, runDialog (waitForRommonDialog rommonPrompt) chunks "" = .ok m →
      wait_for_rommon rommonPrompt chunks curState = (.ok (), "rommon_state")) := by
  constructor
  · intro e he
    simp [wait_for_rommon, he]
  · intro m hm
    simp [wait_for_rommon, hm]

theorem wait_for_rommon_witness :
    wait_for_rommon mioPromptStub [] "fxos_state" =
      (.error (.timeout ""), "fxos_state") :=
  (wait_for_rommon_no_partial_transition mioPromptStub [] "fxos_state").1
    (.timeout "") rfl

/-! ## The download polling loop (claims about `_wait_till_download_complete`) -/

/-- The status stream of the C5 scenario: `'Downloading'` on the first
three polls, `'Downloaded'` on the fourth. -/
def c5Statuses : Nat → String := fun n => if n < 3 then "Downloading" else "Downloaded"

set_option maxRecDepth 400000

/-- C5: with statuses `'Downloading'` three times then `'Downloaded'`
(interval 10 s, deadline 1800 s), the polling loop returns success after
exactly 4 polls with 40 seconds of wall-clock time — inside the claimed
30-40 s window — and has not yet returned after only 3 polls. -/
theorem wait_download_success_on_fourth_poll :
    waitTillDownloadComplete c5Statuses 1800 "cisco-ftd.6.2.0.296.SPA.csp" 181 =
      some (.completed, 4, 40) ∧
    waitTillDownloadComplete c5Statuses 1800 "cisco-ftd.6.2.0.296.SPA.csp" 3 = none ∧
    30 ≤ 40 ∧ 40 ≤ 40 := by
  refine ⟨by decide, by decide, by decide, by decide⟩

/-- C4 counterexample: the loop does not terminate for every status
sequence.  With a stream of a status the loop does not recognize
(`'Queued'`), `elapsed_time` is never updated, so after 500 iterations —
5000 wall-clock seconds, far beyond the 1800-second deadline — the loop is
still running and no timeout error has been raised.  Moreover, the error
the loop does raise on a genuine timeout is
`'download took too long: <image>'`, which names the image but contains no
elapsed duration (not even the string `"1800"`). -/
theorem wait_download_nontermination_counterexample :
    waitTillDownloadComplete (fun _ => "Queued") 1800 "cisco-ftd.6.2.0.296.SPA.csp" 500 =
      none ∧
    waitTillDownloadComplete (fun _ => "Downloading") 1800 "cisco-ftd.6.2.0.296.SPA.csp" 200 =
      some (.timedOut ("download took too long: " ++ "cisco-ftd.6.2.0.296.SPA.csp"),
        180, 1800) ∧
    strContainsB ("download took too long: " ++ "cisco-ftd.6.2.0.296.SPA.csp") "1800" =
      false := by
  refine ⟨by decide, by decide, by decide⟩

/-- Termination of the polling loop for recognized statuses, by induction
on the remaining fuel: from a loop state reached after `polls` polls of
which every one answered `'Downloading'` (so `elapsed = simTime = 10 *
polls`), the loop ends within `181 - polls` further iterations. -/
theorem waitAux_terminates (statuses : Nat → String) (img : String)
    (h : ∀ i, statuses i = "Downloaded" ∨ statuses i = "Downloading" ∨
      statuses i = "Failed") :
    ∀ (fuel polls : Nat), 180 < fuel + polls →
      ∃ p, waitAux statuses 1800 img fuel (10 * polls) polls (10 * polls) = some p ∧
        (p.1 = .completed ∨ p.1 = .failed ∨
          p.1 = .timedOut ("download took too long: " ++ img)) := by
  intro fuel
  induction fuel with
  | zero =>
    intro polls hp
    refine ⟨(.timedOut ("download took too long: " ++ img), polls, 10 * polls), ?_,
      Or.inr (Or.inr rfl)⟩
    simp only [waitAux]
    rw [if_neg (by omega)]
  | succ f ih =>
    intro polls hp
    by_cases hel : 10 * polls < 1800
    · rcases h polls with hst | hst | hst
      · refine ⟨(.completed, polls + 1, 10 * polls + 10), ?_, Or.inl rfl⟩
        simp only [waitAux]
        rw [if_pos hel, if_pos hst]
      · obtain ⟨p, hrec, hshape⟩ := ih (polls + 1) (by omega)
        refine ⟨p, ?_, hshape⟩
        simp only [waitAux]
        rw [if_pos hel, if_neg (by rw [hst]; decide), if_pos hst]
        have harith : 10 * polls + 10 = 10 * (polls + 1) := by ring
        rw [harith]
        exact hrec
      · refine ⟨(.failed, polls + 1, 10 * polls + 10), ?_, Or.inr (Or.inl rfl)⟩
        simp only [waitAux]
        rw [if_pos hel, if_neg (by rw [hst]; decide), if_neg (by rw [hst]; decide),
          if_pos hst]
    · refine ⟨(.timedOut ("download took too long: " ++ img), polls, 10 * polls), ?_,
        Or.inr (Or.inr rfl)⟩
      simp only [waitAux]
      rw [if_neg hel]

/-- C4 amended: for every status sequence drawn from the three statuses the
code recognizes (`'Downloaded'`, `'Downloading'`, `'Failed'`), the polling
loop terminates — it returns on `'Downloaded'` or `'Failed'`, and otherwise
once the 1800-second deadline elapses it raises
`'download took too long: <image>'`, an error that names the image but not
the elapsed duration.  (A status outside this set never updates the elapsed
time, so the loop need not terminate; see the counterexample.) -/
theorem wait_download_terminates (statuses : Nat → String) (img : String)
    (h : ∀ i, statuses i = "Downloaded" ∨ statuses i = "Downloading" ∨
      statuses i = "Failed") :
    ∃ p, waitTillDownloadComplete statuses 1800 img 181 = some p ∧
      (p.1 = .completed ∨ p.1 = .failed ∨
        p.1 = .timedOut ("download took too long: " ++ img)) := by
  have := waitAux_terminates statuses img h 181 0 (by omega)
  simpa [waitTillDownloadComplete] using this

theorem wait_download_terminates_witness :
    ∃ p, waitTillDownloadComplete (fun _ => "Downloading") 1800
        "cisco-ftd.6.2.0.296.SPA.csp" 181 = some p ∧
      (p.1 = .completed ∨ p.1 = .failed ∨
        p.1 = .timedOut ("download took too long: " ++ "cisco-ftd.6.2.0.296.SPA.csp")) :=
  wait_download_terminates (fun _ => "Downloading") "cisco-ftd.6.2.0.296.SPA.csp"
    (fun _ => Or.inr (Or.inl rfl))

/-! ## Metric counters (claims about `publish_kick_metric` call sites) -/

/-- C9 counterexample: one call of the top-level baseline operation
`WmLine.baseline` publishes two `baseline` counter increments —
`device.wm.baseline` from its own body plus `device.kp.baseline` from the
`KpLine.baseline_fp2k_ftd` call it delegates to — not exactly one. -/
theorem wm_baseline_two_increments_counterexample :
    countMetric "baseline" wmBaselineMetrics = 2 ∧
    ¬ countMetric "baseline" wmBaselineMetrics = 1 := by
  refine ⟨by decide, by decide⟩

/-- C9 amended: each device constructor publishes exactly one `init`
counter increment and `KpLine.baseline_fp2k_ftd` publishes exactly one
`baseline` increment, but `WmLine.baseline` publishes two `baseline`
increments (its own plus the one of the underlying `baseline_fp2k_ftd`
call). -/
theorem metric_one_increment_amended :
    countMetric "init" kpInitMetrics = 1 ∧
    countMetric "init" wmInitMetrics = 1 ∧
    countMetric "baseline" baselineFp2kFtdMetrics = 1 ∧
    countMetric "baseline" wmBaselineMetrics = 2 := by
  refine ⟨by decide, by decide, by decide, by decide⟩

/-! ## `power_cycle` guard -/

/-- C10: when neither the stored power-bar server/port nor the
`power_bar_server`/`power_bar_port` arguments are valid (each `None` or the
empty string), `power_cycle` returns `None` without invoking the external
power-distribution-unit call and without modifying any stored power-bar
field. -/
theorem power_cycle_invalid_is_noop
    (storedServer storedPort storedUser storedPwd argServer argPort : Option String)
    (argUser argPwd : String) (pduResult : Bool)
    (h1 : pyTruthy storedServer = false) (_h2 : pyTruthy storedPort = false)
    (h3 : pyTruthy argServer = false) (_h4 : pyTruthy argPort = false) :
    power_cycle storedServer storedPort storedUser storedPwd argServer argPort
        argUser argPwd pduResult =
      ⟨none, storedServer, storedPort, storedUser, storedPwd, false⟩ := by
  simp [power_cycle, h1, h3]

theorem power_cycle_invalid_is_noop_witness :
    power_cycle (some "") none (some "admn") (some "admn") none (some "") "admn" "admn"
        true =
      ⟨none, some "", none, some "admn", some "admn", false⟩ :=
  power_cycle_invalid_is_noop (some "") none (some "admn") (some "admn") none (some "")
    "admn" "admn" true (by decide) (by decide) (by decide) (by decide)

/-! ## The download retry loop (`download_ftd_fp2k`) -/

/-- A list is a Boolean prefix of itself followed by anything. -/
theorem listIsPrefix_self_append (l r : List Char) : listIsPrefix l (l ++ r) = true := by
  induction l with
  | nil => rfl
  | cons x xs ih => simp [listIsPrefix, ih]

/-- `pre ++ rest` starts with `pre`. -/
theorem strHasPrefixB_append (pre rest : String) :
    strHasPrefixB (pre ++ rest) pre = true := by
  simp [strHasPrefixB, String.data_append, listIsPrefix_self_append]

/-- Filtering with a predicate false at `a` empties a replicate of `a`. -/
theorem filter_replicate_false {α : Type} (p : α → Bool) (a : α) (h : p a = false)
    (n : Nat) : (List.replicate n a).filter p = [] := by
  induction n with
  | zero => rfl
  | succ n ih => simp [List.replicate_succ, List.filter_cons, h, ih]

/-- C3: when the device answers that the requested version is not installed
and the bundle is not yet downloaded, and every download attempt ends with
status `'Failed'`, `download_ftd_fp2k` sends the `download image <url>`
command exactly `MAX_RETRY_COUNT = 3` times and then raises the terminal
error naming the attempt count and the target file URL. -/
theorem download_retries_exhausted (fxosUrl ftdVersion fprmOutput : String)
    (packages : List Package) (attemptStatus : Nat → String)
    (hready : is_firmware_fp2k_ready fprmOutput ftdVersion = some false)
    (hpkg : bundlePackageName fxosUrl ∉ packages.map Package.name)
    (hfail : ∀ i, attemptStatus i = "Failed") :
    ∃ r, download_ftd_fp2k fxosUrl ftdVersion fprmOutput packages attemptStatus =
        some r ∧
      r.result = .error (.downloadFailed MAX_RETRY_COUNT fxosUrl) ∧
      downloadImageCount r.trace = MAX_RETRY_COUNT ∧ MAX_RETRY_COUNT = 3 := by
  have e0 := hfail 0
  have e1 := hfail 1
  have e2 := hfail 2
  have hloop : downloadLoop fxosUrl attemptStatus 0 MAX_RETRY_COUNT (MAX_RETRY_COUNT + 1) =
      some ⟨("download image " ++ fxosUrl) :: List.replicate 30 "\x03" ++
          (("download image " ++ fxosUrl) :: List.replicate 30 "\x03" ++
            [("download image " ++ fxosUrl)]),
        .error (.downloadFailed MAX_RETRY_COUNT fxosUrl)⟩ := by
    simp [downloadLoop, MAX_RETRY_COUNT, e0, e1, e2]
  refine ⟨⟨[fprmCheckCmd, "top", "scope firmware", "show package"] ++
      (("download image " ++ fxosUrl) :: List.replicate 30 "\x03" ++
        (("download image " ++ fxosUrl) :: List.replicate 30 "\x03" ++
          [("download image " ++ fxosUrl)])),
    .error (.downloadFailed MAX_RETRY_COUNT fxosUrl)⟩, ?_, rfl, ?_, rfl⟩
  · simp only [download_ftd_fp2k, hready]
    rw [if_neg hpkg, hloop]
    rfl
  · simp only [downloadImageCount, List.filter_append, List.filter_cons,
      strHasPrefixB_append,
      filter_replicate_false (fun c => strHasPrefixB c "download image ") "\x03"
        (by decide)]
    norm_num
    decide

theorem download_retries_exhausted_witness :
    ∃ r, download_ftd_fp2k "tftp://10.89.23.80/installers/cisco-ftd-fp2k.6.2.1-1177.SSA"
        "6.2.1-1177" "Package-Vers: 6.2.1-1052" [] (fun _ => "Failed") = some r ∧
      r.result = .error (.downloadFailed MAX_RETRY_COUNT
        "tftp://10.89.23.80/installers/cisco-ftd-fp2k.6.2.1-1177.SSA") ∧
      downloadImageCount r.trace = MAX_RETRY_COUNT ∧ MAX_RETRY_COUNT = 3 :=
  download_retries_exhausted "tftp://10.89.23.80/installers/cisco-ftd-fp2k.6.2.1-1177.SSA"
    "6.2.1-1177" "Package-Vers: 6.2.1-1052" [] (fun _ => "Failed")
    (by decide) (by decide) (fun _ => rfl)

/-- C6: when the installed firmware package version already equals the
requested `ftd_version`, or that check answers no but the package list
already contains the requested bundle package name, `download_ftd_fp2k`
returns successfully without sending any `download image` command, so a
second invocation with the same target is a no-op for the already-applied
step. -/
theorem download_skips_when_installed (fxosUrl ftdVersion fprmOutput : String)
    (packages : List Package) (attemptStatus : Nat → String)
    (h : is_firmware_fp2k_ready fprmOutput ftdVersion = some true ∨
      (is_firmware_fp2k_ready fprmOutput ftdVersion = some false ∧
        bundlePackageName fxosUrl ∈ packages.map Package.name)) :
    ∃ r, download_ftd_fp2k fxosUrl ftdVersion fprmOutput packages attemptStatus =
        some r ∧
      r.result = .ok () ∧ downloadImageCount r.trace = 0 := by
  rcases h with h | ⟨h1, h2⟩
  · exact ⟨⟨[fprmCheckCmd], .ok ()⟩, by simp [download_ftd_fp2k, h], rfl, by decide⟩
  · refine ⟨⟨[fprmCheckCmd, "top", "scope firmware", "show package"], .ok ()⟩, ?_, rfl,
      by decide⟩
    simp only [download_ftd_fp2k, h1]
    rw [if_pos h2]

theorem download_skips_when_installed_witness :
    ∃ r, download_ftd_fp2k "scp://pxe@172.23.47.63:/tftpboot/cisco-ftd-fp2k.6.2.1-1088.SSA"
        "6.2.1-1088" "Package-Vers: 6.2.1-1088" [] (fun _ => "Failed") = some r ∧
      r.result = .ok () ∧ downloadImageCount r.trace = 0 :=
  download_skips_when_installed
    "scp://pxe@172.23.47.63:/tftpboot/cisco-ftd-fp2k.6.2.1-1088.SSA"
    "6.2.1-1088" "Package-Vers: 6.2.1-1088" [] (fun _ => "Failed")
    (Or.inl (by decide))

/-! ## `validate_version` -/

/-- C8: with a `show version` response from which the `Build\s(\d+)` and
`(Version\s){1}([0-9.]+\d)` regexes extract a build `b` and a version `v`,
`validate_version` raises the terminal error carrying both the observed
response and the expected `ftd_version` exactly when the extracted
version/build do not match the target (Python's
`build in ftd_version and version in ftd_version`), and returns normally
when they match. -/
theorem validate_version_mismatch_iff (response ftdVersion : String)
    (b v : List Char)
    (hb : findBuild response.data = some b) (hv : findVersion response.data = some v) :
    (validate_version response ftdVersion = .ok () ↔
      (listIsInfixB b ftdVersion.data = true ∧ listIsInfixB v ftdVersion.data = true)) ∧
    (validate_version response ftdVersion =
        .error (.versionMismatch response ftdVersion) ↔
      ¬ (listIsInfixB b ftdVersion.data = true ∧
        listIsInfixB v ftdVersion.data = true)) := by
  have hval : validate_version response ftdVersion =
      if (listIsInfixB b ftdVersion.data && listIsInfixB v ftdVersion.data) = true
      then Except.ok () else Except.error (.versionMismatch response ftdVersion) := by
    simp only [validate_version, hb, hv]
  cases hab : (listIsInfixB b ftdVersion.data && listIsInfixB v ftdVersion.data) with
  | true =>
    rw [hval, hab, if_pos rfl]
    rw [Bool.and_eq_true] at hab
    have hsplit := hab
    constructor
    · simp [hsplit.1, hsplit.2]
    · simp [hsplit.1, hsplit.2]
  | false =>
    rw [hval, hab, if_neg (by simp)]
    have hsplit := Bool.and_eq_false_iff.mp hab
    constructor
    · constructor
      · intro h
        exact absurd h (by simp)
      · rintro ⟨ha, hbv⟩
        rcases hsplit with hx | hx
        · rw [ha] at hx; cases hx
        · rw [hbv] at hx; cases hx
    · constructor
      · intro _
        rintro ⟨ha, hbv⟩
        rcases hsplit with hx | hx
        · rw [ha] at hx; cases hx
        · rw [hbv] at hx; cases hx
      · intro _
        rfl

/-- Concrete `show version` output used by the C8 witness. -/
def showVersionEx : String := "Cisco Firepower Threat Defense Version 6.2.1 (Build 1177)"

theorem validate_version_witness :
    validate_version showVersionEx "6.2.1-1177" = .ok () :=
  ((validate_version_mismatch_iff showVersionEx "6.2.1-1177"
      "1177".data "6.2.1".data (by decide) (by decide)).1).mpr
    ⟨by decide, by decide⟩

/-! ## Reachability lemmas for the Kp state graph -/

/-- A set is contained in its one-step expansion. -/
theorem mem_stepSet_of_mem {S : List KpSt} {x : KpSt} (hx : x ∈ S) : x ∈ stepSet S := by
  simp only [stepSet, List.mem_dedup, List.mem_append]
  exact Or.inl hx

/-- `stepSet` is monotone. -/
theorem stepSet_mono {S T : List KpSt} (h : S ⊆ T) : stepSet S ⊆ stepSet T := by
  intro x hx
  simp only [stepSet, List.mem_dedup, List.mem_append, List.mem_flatMap] at hx ⊢
  rcases hx with hx | ⟨y, hy, hxy⟩
  · exact Or.inl (h hx)
  · exact Or.inr ⟨y, h hy, hxy⟩

/-- Following one declared path from a member of `S` lands in `stepSet S`. -/
theorem mem_stepSet_of_path {S : List KpSt} {x : KpSt} {p : KpPath}
    (hx : x ∈ S) (hp : p ∈ kpPaths) (hs : p.src = x) : p.dst ∈ stepSet S := by
  simp only [stepSet, List.mem_dedup, List.mem_append, List.mem_flatMap]
  refine Or.inr ⟨x, hx, ?_⟩
  simp only [succsOf, List.mem_map, List.mem_filter]
  exact ⟨p, ⟨hp, by simp [hs]⟩, rfl⟩

/-- `reachN` is monotone in the start set. -/
theorem reachN_mono {S T : List KpSt} (h : S ⊆ T) : ∀ n, reachN S n ⊆ reachN T n := by
  intro n
  induction n with
  | zero => exact h
  | succ n ih => exact stepSet_mono ih

/-- Expanding once at the start equals expanding once more at the end. -/
theorem reachN_shift (S : List KpSt) : ∀ n, reachN S (n + 1) = reachN (stepSet S) n := by
  intro n
  induction n with
  | zero => rfl
  | succ n ih =>
    show stepSet (reachN S (n + 1)) = stepSet (reachN (stepSet S) n)
    rw [ih]

/-- `reachN` is monotone in the step count. -/
theorem reachN_le_mono {S : List KpSt} {m n : Nat} (h : m ≤ n) :
    reachN S m ⊆ reachN S n := by
  induction h with
  | refl => exact fun x hx => hx
  | step _ ih => exact fun x hx => mem_stepSet_of_mem (ih hx)

/-- Splitting the step count of `reachN`. -/
theorem reachN_add (S : List KpSt) (a : Nat) :
    ∀ b, reachN S (a + b) = reachN (reachN S a) b := by
  intro b
  induction b with
  | zero => rfl
  | succ b ih =>
    show stepSet (reachN S (a + b)) = stepSet (reachN (reachN S a) b)
    rw [ih]

/-- A set closed under one-step expansion absorbs every `reachN`. -/
theorem reachN_of_sat {T : List KpSt} (h : stepSet T ⊆ T) : ∀ n, reachN T n ⊆ T := by
  intro n
  induction n with
  | zero => exact fun x hx => hx
  | succ n ih => exact fun x hx => h (stepSet_mono ih hx)

/-- A valid chain of `ps.length` declared paths from `a` to `b` puts `b`
inside the breadth-first level `ps.length` computed from `a`. -/
theorem chainB_mem_reachN : ∀ (ps : List KpPath) (a b : KpSt),
    chainB a ps b = true → b ∈ reachN [a] ps.length := by
  intro ps
  induction ps with
  | nil =>
    intro a b h
    simp only [chainB, decide_eq_true_eq] at h
    simp [reachN, h]
  | cons p ps ih =>
    intro a b h
    simp only [chainB, Bool.and_eq_true, decide_eq_true_eq] at h
    obtain ⟨⟨hsrc, hmemp⟩, hrest⟩ := h
    have hd : p.dst ∈ stepSet [a] := mem_stepSet_of_path (by simp) hmemp hsrc
    have hsub : [p.dst] ⊆ stepSet [a] := by
      intro x hx
      simp only [List.mem_singleton] at hx
      subst hx
      exact hd
    have hB := reachN_mono hsub ps.length (ih p.dst b hrest)
    rw [← reachN_shift] at hB
    simpa using hB

/-- C2: over the state graph of `KpStateMachine.create`, for any two states
`A`, `B`: whenever `go_to(B)` from `A` plans a path list it is a valid
chain of declared Paths executed in order, of minimal length among all
chains from `A` to `B`, ending with current-state `B`; whenever it fails
the failure is `NoPathError`, no chain of declared paths joins `A` to `B`,
and current-state stays `A`; a failure is impossible when a chain exists;
and in particular `rommon_state`, which no Path enters, is unreachable via
`go_to` from every other state. -/
theorem kp_goTo_shortest_path_or_noPath :
    (∀ A B : KpSt,
      (∀ ps, goTo A B = .ok ps →
        chainB A ps B = true ∧ goToEndState A B = B ∧
        ∀ qs, chainB A qs B = true → ps.length ≤ qs.length) ∧
      (∀ e, goTo A B = .error e →
        e = SmError.noPath ∧ goToEndState A B = A ∧ ∀ qs, chainB A qs B = false) ∧
      (∀ qs, chainB A qs B = true → ∃ ps, goTo A B = .ok ps)) ∧
    (∀ A : KpSt, A ≠ KpSt.rommon → goTo A KpSt.rommon = .error SmError.noPath) := by
  have hall : kpCheckAll = true := by decide
  simp only [kpCheckAll, Bool.and_eq_true, List.all_eq_true] at hall
  obtain ⟨hpairs, hrom⟩ := hall
  have hmem : ∀ s : KpSt, s ∈ kpStates := by
    intro s
    cases s <;> simp [kpStates]
  have hok : ∀ A B : KpSt, ∀ ps, goTo A B = .ok ps →
      chainB A ps B = true ∧
        (ps.length = 0 ∨ memReach A B (ps.length - 1) = false) := by
    intro A B ps hAB
    have hc := hpairs A (hmem A) B (hmem B)
    simp only [goToCheck, hAB] at hc
    rw [Bool.and_eq_true] at hc
    refine ⟨hc.1, ?_⟩
    have h2 := hc.2
    rw [Bool.or_eq_true] at h2
    rcases h2 with h2 | h2
    · exact Or.inl (by simpa using h2)
    · exact Or.inr (by simpa using h2)
  have herr : ∀ A B : KpSt, ∀ e, goTo A B = .error e →
      e = SmError.noPath ∧ (∀ qs, chainB A qs B = false) := by
    intro A B e hAB
    have hc := hpairs A (hmem A) B (hmem B)
    simp only [goToCheck, hAB] at hc
    rw [Bool.and_eq_true, Bool.and_eq_true] at hc
    obtain ⟨⟨he, hnm⟩, hsat⟩ := hc
    have he' : e = SmError.noPath := by cases e; rfl
    have hnot : B ∉ reachN [A] 10 := by
      simp only [memReach] at hnm
      simpa using hnm
    have hsat' : stepSet (reachN [A] 10) ⊆ reachN [A] 10 := by
      intro x hx
      have hx' := List.all_eq_true.mp hsat x hx
      simpa using hx'
    refine ⟨he', ?_⟩
    intro qs
    cases hq : chainB A qs B with
    | false => rfl
    | true =>
      exfalso
      have hmemq : B ∈ reachN [A] qs.length := chainB_mem_reachN qs A B hq
      rcases Nat.le_total qs.length 10 with h10 | h10
      · exact hnot (reachN_le_mono h10 hmemq)
      · have heq : qs.length = 10 + (qs.length - 10) := by omega
        rw [heq, reachN_add] at hmemq
        exact hnot (reachN_of_sat hsat' _ hmemq)
  refine ⟨?_, ?_⟩
  · intro A B
    refine ⟨?_, ?_, ?_⟩
    · intro ps hps
      obtain ⟨hchain, hlen⟩ := hok A B ps hps
      refine ⟨hchain, by simp [goToEndState, hps], ?_⟩
      intro qs hqs
      by_contra hlt
      push_neg at hlt
      rcases hlen with h0 | hm
      · omega
      · have hmq : B ∈ reachN [A] qs.length := chainB_mem_reachN qs A B hqs
        have hmq' : B ∈ reachN [A] (ps.length - 1) :=
          reachN_le_mono (by omega) hmq
        simp only [memReach, decide_eq_false_iff_not] at hm
        exact hm hmq'
    · intro e he
      obtain ⟨h1, h2⟩ := herr A B e he
      exact ⟨h1, by simp [goToEndState, he], h2⟩
    · intro qs hq
      cases hgo : goTo A B with
      | ok ps => exact ⟨ps, rfl⟩
      | error e =>
        have hfalse := (herr A B e hgo).2 qs
        rw [hq] at hfalse
        cases hfalse
  · intro A hA
    have h := hrom A (hmem A)
    rw [Bool.or_eq_true] at h
    rcases h with h | h
    · exact absurd (by simpa using h) hA
    · cases hgo : goTo A KpSt.rommon with
      | ok ps =>
        rw [hgo] at h
        simp [isNoPath] at h
      | error e =>
        cases e
        rfl

theorem kp_goTo_shortest_path_or_noPath_witness :
    goTo KpSt.fxos KpSt.rommon = .error SmError.noPath :=
  kp_goTo_shortest_path_or_noPath.2 KpSt.fxos (by decide)
